import Mathlib

/-!
Verification of the synthetic sales-data generator
(`generate_sales_data.py`) of the sales-dashboard repository.

The generator is a sequential stochastic procedure: for every calendar day
in the fixed range 2022-01-01 .. 2024-12-31 it draws a transaction count
from a Poisson distribution (floored at 1) and assembles one record per
transaction from further random draws.  We embed it shallowly: all
randomness is an explicit oracle (`Tape`), money arithmetic is exact
rational arithmetic, the day-rate pipeline that feeds the Poisson mean
uses real arithmetic (it contains a sinusoid), and Python's `round(x, 2)`
is round-half-even on rationals.
-/

namespace SalesData

/-! ### Decimal rendering and zero padding

Embeds Python's `f'{n:06d}'` / `f'{n:05d}'` / `%02d`-style formatting:
decimal digits of `n`, left-padded with `'0'` to the requested width.
`natCharsAux` carries explicit fuel so that it is structurally recursive
(the fuel `n + 1` always suffices, since `n / 10 < n` for `10 ≤ n`). -/

def digitChar : Nat → Char
  | 0 => '0' | 1 => '1' | 2 => '2' | 3 => '3' | 4 => '4'
  | 5 => '5' | 6 => '6' | 7 => '7' | 8 => '8' | _ => '9'

def natCharsAux : Nat → Nat → List Char
  | 0, _ => []
  | fuel + 1, n =>
    if n < 10 then [digitChar n]
    else natCharsAux fuel (n / 10) ++ [digitChar (n % 10)]

def natChars (n : Nat) : List Char := natCharsAux (n + 1) n

def natStr (n : Nat) : String := String.mk (natChars n)

def padZ (w n : Nat) : String :=
  String.mk (List.replicate (w - (natChars n).length) '0' ++ natChars n)

/-- Reads a digit string back to the number it denotes (used only to prove
that the padded rendering is injective). -/
def unpadVal (s : String) : Nat :=
  s.data.foldl (fun a c => a * 10 + (c.toNat - 48)) 0

/-! ### The calendar of the fixed date range

`pd.date_range(datetime(2022,1,1), datetime(2024,12,31), freq='D')` is the
list of 1096 consecutive days (2024 is a leap year); we index them by
`i ∈ [0, 1096)`, day 0 being 2022-01-01 (a Saturday). -/

def numDays : Nat := 1096

def yearOf (i : Nat) : Nat := if i < 365 then 2022 else if i < 730 then 2023 else 2024

/-- `date.timetuple().tm_yday`: 1-based day of the year of day index `i`. -/
def dayOfYear (i : Nat) : Nat := if i < 365 then i + 1 else if i < 730 then i - 364 else i - 729

def isLeap (y : Nat) : Bool := (y % 4 == 0 && y % 100 != 0) || (y % 400 == 0)

/-- Month and day-of-month from a 1-based day of the year. -/
def monthDay (leap : Bool) (d : Nat) : Nat × Nat :=
  let f : Nat := if leap then 29 else 28
  if d ≤ 31 then (1, d)
  else if d ≤ 31 + f then (2, d - 31)
  else if d ≤ 62 + f then (3, d - (31 + f))
  else if d ≤ 92 + f then (4, d - (62 + f))
  else if d ≤ 123 + f then (5, d - (92 + f))
  else if d ≤ 153 + f then (6, d - (123 + f))
  else if d ≤ 184 + f then (7, d - (153 + f))
  else if d ≤ 215 + f then (8, d - (184 + f))
  else if d ≤ 245 + f then (9, d - (215 + f))
  else if d ≤ 276 + f then (10, d - (245 + f))
  else if d ≤ 306 + f then (11, d - (276 + f))
  else (12, d - (306 + f))

/-- `date.month` of day index `i`. -/
def monthOf (i : Nat) : Nat := (monthDay (isLeap (yearOf i)) (dayOfYear i)).1

/-- Day of the month of day index `i`. -/
def domOf (i : Nat) : Nat := (monthDay (isLeap (yearOf i)) (dayOfYear i)).2

/-- `date.weekday()`: Monday = 0 .. Sunday = 6; 2022-01-01 is a Saturday (5). -/
def weekdayOf (i : Nat) : Nat := (5 + i) % 7

/-- `date.strftime('%A')`. -/
def dayName : Nat → String
  | 0 => "Monday" | 1 => "Tuesday" | 2 => "Wednesday" | 3 => "Thursday"
  | 4 => "Friday" | 5 => "Saturday" | _ => "Sunday"

/-- `date.strftime('%Y-%m-%d')`. -/
def dateStr (i : Nat) : String :=
  padZ 4 (yearOf i) ++ "-" ++ padZ 2 (monthOf i) ++ "-" ++ padZ 2 (domOf i)

/-- Day of the year for an extended (possibly negative) day index, covering
2021 through 2025 — needed for the Thursday of the first and last ISO weeks. -/
def extDayOfYear (t : Int) : Int :=
  if t < 0 then t + 366
  else if t < 365 then t + 1
  else if t < 730 then t - 364
  else if t < 1096 then t - 729
  else t - 1095

/-- `date.isocalendar()[1]`: the ISO week number is the week of the Thursday
belonging to the date's week (Monday-based). -/
def isoWeekNum (i : Nat) : Nat :=
  let w := (5 + i) % 7
  let t : Int := (i : Int) - w + 3
  (((extDayOfYear t - 1) / 7) + 1).toNat

/-! ### Rounding

Python's `round(x, 2)` is round-half-to-even on the exact value. -/

def roundHalfEven (q : ℚ) : ℤ :=
  if q - ⌊q⌋ < 1 / 2 then ⌊q⌋
  else if 1 / 2 < q - ⌊q⌋ then ⌊q⌋ + 1
  else if ⌊q⌋ % 2 = 0 then ⌊q⌋ else ⌊q⌋ + 1

def round2 (q : ℚ) : ℚ := (roundHalfEven (100 * q) : ℚ) / 100

/-! ### Business data parameters (source lines 20–38 and 91–103, 153–156) -/

def products : List String :=
  ["Laptop", "Desktop", "Monitor", "Keyboard", "Mouse", "Printer", "Scanner", "Tablet"]

def regions : List String :=
  ["North America", "Europe", "Asia Pacific", "South America", "Africa"]

def sales_reps : List String :=
  ["John Smith", "Sarah Johnson", "Mike Wilson", "Lisa Brown", "Tom Davis",
   "Maria Garcia", "David Chen", "Emma Thompson", "Carlos Rodriguez", "Anna Petrov"]

def customers : List String := (List.range 1000).map (fun k => "CUST_" ++ padZ 5 (k + 1))

def base_prices : String → ℚ
  | "Laptop" => 800 | "Desktop" => 600 | "Monitor" => 300 | "Keyboard" => 50
  | "Mouse" => 25 | "Printer" => 150 | "Scanner" => 200 | "Tablet" => 400
  | _ => 0

def product_categories : String → String
  | "Laptop" => "Electronics" | "Desktop" => "Electronics" | "Monitor" => "Electronics"
  | "Tablet" => "Electronics" | "Keyboard" => "Accessories" | "Mouse" => "Accessories"
  | "Printer" => "Peripherals" | "Scanner" => "Peripherals"
  | _ => ""

def region_multipliers : String → ℚ
  | "North America" => 1.2 | "Europe" => 1.1 | "Asia Pacific" => 0.9
  | "South America" => 0.8 | "Africa" => 0.7
  | _ => 0

def rep_performance : String → ℚ
  | "John Smith" => 1.15 | "Sarah Johnson" => 1.12 | "Mike Wilson" => 1.08
  | "Lisa Brown" => 1.05 | "Tom Davis" => 1.03 | "Maria Garcia" => 1.10
  | "David Chen" => 1.07 | "Emma Thompson" => 1.06 | "Carlos Rodriguez" => 1.04
  | "Anna Petrov" => 1.09
  | _ => 0

def region_delivery_days : String → Nat × Nat
  | "North America" => (1, 5) | "Europe" => (3, 8) | "Asia Pacific" => (5, 12)
  | "South America" => (7, 15) | "Africa" => (10, 20)
  | _ => (0, 0)

/-! ### The per-transaction random draws

All `np.random.*` results consumed by one iteration of the inner loop,
made explicit as an oracle value.  Index draws stand for the `choice`
calls, the rationals for `uniform` / `random` / `normal` results, the
naturals for `randint` results.  `WellFormed` records exactly the ranges
numpy guarantees for these draws. -/

structure Draws where
  productIdx : Nat
  regionIdx : Nat
  repIdx : Nat
  customerIdx : Nat
  price_variation : ℚ
  bulkRoll : ℚ
  bulkQty : Nat
  normalQty : Nat
  cost_ratio : ℚ
  discountRoll : ℚ
  discountDraw : ℚ
  shippingDraw : ℚ
  satNoise : ℚ
  deliveryDraw : Nat
  returnRoll : ℚ

/-! ### The per-transaction pipeline (source lines 73–162) -/

def product (d : Draws) : String := products.getD d.productIdx ""

def category (d : Draws) : String := product_categories (product d)

def region (d : Draws) : String := regions.getD d.regionIdx ""

def sales_rep (d : Draws) : String := sales_reps.getD d.repIdx ""

def customer_id (d : Draws) : String := customers.getD d.customerIdx ""

def rep_factor (d : Draws) : ℚ := rep_performance (sales_rep d)

def unit_price (d : Draws) : ℚ :=
  base_prices (product d) * region_multipliers (region d) * rep_factor d * d.price_variation

def quantity (d : Draws) : Nat := if d.bulkRoll < 0.1 then d.bulkQty else d.normalQty

def revenue (d : Draws) : ℚ := unit_price d * quantity d

def cost (d : Draws) : ℚ := revenue d * d.cost_ratio

def profit (d : Draws) : ℚ := revenue d - cost d

def profit_margin (d : Draws) : ℚ := profit d / revenue d * 100

def discount_percent (d : Draws) : ℚ := if d.discountRoll < 0.2 then d.discountDraw else 0

def discount_amount (d : Draws) : ℚ :=
  if d.discountRoll < 0.2 then revenue d * (d.discountDraw / 100) else 0

def final_revenue (d : Draws) : ℚ := revenue d - discount_amount d

def final_profit (d : Draws) : ℚ := final_revenue d - cost d

/-- Source line 138: `(final_profit / final_revenue) * 100 if final_revenue > 0 else 0`. -/
def final_margin (d : Draws) : ℚ :=
  if 0 < final_revenue d then final_profit d / final_revenue d * 100 else 0

def shipping_cost (d : Draws) : ℚ := d.shippingDraw

def tax_rate (d : Draws) : ℚ := if region d = "North America" then 0.08 else 0.15

def tax_amount (d : Draws) : ℚ := final_revenue d * tax_rate d

def satisfaction_boost (d : Draws) : ℚ :=
  final_margin d / 100 * 0.5 + (rep_factor d - 1) * 2

def customer_satisfaction (d : Draws) : ℚ :=
  min 5.0 (max 1.0 (3.5 + satisfaction_boost d + d.satNoise))

def delivery_days (d : Draws) : Nat := d.deliveryDraw

def return_probability (d : Draws) : ℚ :=
  max 0.01 (0.15 - (customer_satisfaction d - 3) * 0.03)

def is_returned (d : Draws) : Bool := decide (d.returnRoll < return_probability d)

/-- Division that signals a zero denominator, to state that the guarded and
unguarded margin computations never divide by zero. -/
def safeDiv (a b : ℚ) : Option ℚ := if b = 0 then none else some (a / b)

/-- Line 125 recomputed with signalling division (the source divides unguarded). -/
def pm_checked (d : Draws) : Option ℚ := (safeDiv (profit d) (revenue d)).map (· * 100)

/-- Line 138 recomputed with signalling division (the source divides under the
`final_revenue > 0` guard). -/
def fm_checked (d : Draws) : Option ℚ :=
  if 0 < final_revenue d then (safeDiv (final_profit d) (final_revenue d)).map (· * 100)
  else some 0

/-- The ranges numpy guarantees for the raw draws of one transaction:
`choice` indices are in range, `uniform(a, b)` lands in `[a, b)`,
`random()` in `[0, 1)`, `randint(a, b)` in `[a, b)`. -/
def WellFormed (d : Draws) : Prop :=
  d.productIdx < 8 ∧ d.regionIdx < 5 ∧ d.repIdx < 10 ∧ d.customerIdx < 1000 ∧
  0.85 ≤ d.price_variation ∧ d.price_variation < 1.25 ∧
  0 ≤ d.bulkRoll ∧ d.bulkRoll < 1 ∧
  5 ≤ d.bulkQty ∧ d.bulkQty < 20 ∧
  1 ≤ d.normalQty ∧ d.normalQty < 4 ∧
  0.4 ≤ d.cost_ratio ∧ d.cost_ratio < 0.7 ∧
  0 ≤ d.discountRoll ∧ d.discountRoll < 1 ∧
  5 ≤ d.discountDraw ∧ d.discountDraw < 25 ∧
  (if region d ≠ "North America" then 5 ≤ d.shippingDraw ∧ d.shippingDraw < 25
   else 2 ≤ d.shippingDraw ∧ d.shippingDraw < 10) ∧
  (region_delivery_days (region d)).1 ≤ d.deliveryDraw ∧
  d.deliveryDraw ≤ (region_delivery_days (region d)).2 ∧
  0 ≤ d.returnRoll ∧ d.returnRoll < 1

instance (d : Draws) : Decidable (WellFormed d) := by
  unfold WellFormed
  infer_instance

/-! ### Record assembly (source lines 164–197) -/

structure Record where
  Order_ID : String
  Date : String
  Customer_ID : String
  Product : String
  Category : String
  Region : String
  Sales_Rep : String
  Quantity : Nat
  Unit_Price : ℚ
  Revenue : ℚ
  Cost : ℚ
  Profit : ℚ
  Profit_Margin : ℚ
  Discount_Percent : ℚ
  Discount_Amount : ℚ
  Final_Revenue : ℚ
  Final_Profit : ℚ
  Final_Margin : ℚ
  Shipping_Cost : ℚ
  Tax_Amount : ℚ
  Customer_Satisfaction : ℚ
  Delivery_Days : Nat
  Is_Returned : Bool
  Year : Nat
  Month : Nat
  Quarter : String
  Day_of_Week : String
  Week_Number : Nat
deriving DecidableEq, Repr

def mkRecord (order_id : Nat) (i : Nat) (d : Draws) : Record where
  Order_ID := "ORD_" ++ padZ 6 order_id
  Date := dateStr i
  Customer_ID := customer_id d
  Product := product d
  Category := category d
  Region := region d
  Sales_Rep := sales_rep d
  Quantity := quantity d
  Unit_Price := round2 (unit_price d)
  Revenue := round2 (revenue d)
  Cost := round2 (cost d)
  Profit := round2 (profit d)
  Profit_Margin := round2 (profit_margin d)
  Discount_Percent := round2 (discount_percent d)
  Discount_Amount := round2 (discount_amount d)
  Final_Revenue := round2 (final_revenue d)
  Final_Profit := round2 (final_profit d)
  Final_Margin := round2 (final_margin d)
  Shipping_Cost := round2 (shipping_cost d)
  Tax_Amount := round2 (tax_amount d)
  Customer_Satisfaction := round2 (customer_satisfaction d)
  Delivery_Days := delivery_days d
  Is_Returned := is_returned d
  Year := yearOf i
  Month := monthOf i
  Quarter := "Q" ++ natStr ((monthOf i - 1) / 3 + 1)
  Day_of_Week := dayName (weekdayOf i)
  Week_Number := isoWeekNum i

/-! ### CSV schema of the primary dataset -/

/-- One cell of the serialized table; `null` is a missing value (pandas `NaN`)
and is never produced by the generator. -/
inductive Cell where
  | str (s : String)
  | nat (n : Nat)
  | rat (q : ℚ)
  | bool (b : Bool)
  | null
deriving DecidableEq, Repr

/-- The cells of one row of `sales_data.csv`, in the order of the record
dictionary (source lines 165–194). -/
def toRow (r : Record) : List Cell :=
  [.str r.Order_ID, .str r.Date, .str r.Customer_ID, .str r.Product, .str r.Category,
   .str r.Region, .str r.Sales_Rep, .nat r.Quantity, .rat r.Unit_Price, .rat r.Revenue,
   .rat r.Cost, .rat r.Profit, .rat r.Profit_Margin, .rat r.Discount_Percent,
   .rat r.Discount_Amount, .rat r.Final_Revenue, .rat r.Final_Profit, .rat r.Final_Margin,
   .rat r.Shipping_Cost, .rat r.Tax_Amount, .rat r.Customer_Satisfaction,
   .nat r.Delivery_Days, .bool r.Is_Returned, .nat r.Year, .nat r.Month, .str r.Quarter,
   .str r.Day_of_Week, .nat r.Week_Number]

/-- The header of `sales_data.csv`: the record dictionary keys in source order. -/
def dfColumns : List String :=
  ["Order_ID", "Date", "Customer_ID", "Product", "Category", "Region", "Sales_Rep",
   "Quantity", "Unit_Price", "Revenue", "Cost", "Profit", "Profit_Margin",
   "Discount_Percent", "Discount_Amount", "Final_Revenue", "Final_Profit", "Final_Margin",
   "Shipping_Cost", "Tax_Amount", "Customer_Satisfaction", "Delivery_Days", "Is_Returned",
   "Year", "Month", "Quarter", "Day_of_Week", "Week_Number"]

/-- The transaction-record fields exactly as enumerated, in order, by the
spec's data-model section (written there in lower case, here with the
capitalization the output contract uses). -/
def specColumns : List String :=
  ["Order_ID", "Date", "Customer_ID", "Product", "Category", "Region", "Sales_Rep",
   "Quantity", "Unit_Price", "Revenue", "Cost", "Profit", "Profit_Margin",
   "Discount_Percent", "Discount_Amount", "Final_Revenue", "Final_Profit", "Final_Margin",
   "Shipping_Cost", "Tax_Amount", "Customer_Satisfaction", "Delivery_Days", "Is_Returned",
   "Year", "Month", "Quarter", "Day_of_Week", "Week_Number"]

/-! ### The per-day rate pipeline (source lines 43–70) -/

noncomputable def sinusoid (i : Nat) : ℝ :=
  1 + 0.3 * Real.sin (2 * Real.pi * (dayOfYear i : ℝ) / 365)

/-- Lines 46–54: the sinusoid, then the sequential month overrides. -/
noncomputable def seasonal_factor (i : Nat) : ℝ :=
  if monthOf i ∈ [11, 12] then sinusoid i * 1.8
  else if monthOf i ∈ [6, 7] then sinusoid i * 1.3
  else if monthOf i ∈ [1, 2] then sinusoid i * 0.7
  else sinusoid i

/-- Lines 56–60: weekday/weekend effect. -/
noncomputable def daily_factor (i : Nat) : ℝ := if weekdayOf i < 5 then 1.2 else 0.8

/-- Lines 62–64: linear growth; `days_since_start` is the day index itself. -/
noncomputable def growth_factor (i : Nat) : ℝ := 1 + ((i : ℝ) / 365) * 0.15

def base_transactions : ℝ := 15

/-- The mean handed to `np.random.poisson` on line 68. -/
noncomputable def dayMean (i : Nat) : ℝ :=
  base_transactions * seasonal_factor i * daily_factor i * growth_factor i

/-! ### The random oracle and the generation loop (lines 40–199)

The single global numpy stream, seeded once, is abstracted as a `Tape`:
`poisson i μ` is the Poisson draw of day `i` at mean `μ`, and `tx n` bundles
the draws of the transaction that receives order id `n`.  The loop itself
is then a deterministic fold over the day range. -/

structure Tape where
  poisson : Nat → ℝ → Nat
  tx : Nat → Draws

/-- Line 68: `max(1, int(np.random.poisson(mean)))`. -/
noncomputable def numTx (t : Tape) (i : Nat) : Nat := max 1 (t.poisson i (dayMean i))

/-- The records of day `i` when the day starts at order id `oid`. -/
noncomputable def blockAt (t : Tape) (oid i : Nat) : List Record :=
  (List.range (numTx t i)).map (fun j => mkRecord (oid + j) i (t.tx (oid + j)))

/-- One iteration of the outer day loop: state is (next order id, data so far). -/
noncomputable def dayStep (t : Tape) (st : Nat × List Record) (i : Nat) : Nat × List Record :=
  (st.1 + numTx t i, st.2 ++ blockAt t st.1 i)

/-- Lines 40–199: the full generation loop, starting from `order_id = 1`. -/
noncomputable def generate_sales_data (t : Tape) : List Record :=
  ((List.range numDays).foldl (dayStep t) (1, [])).2

/-- Closed form of the loop: the concatenated per-day blocks. -/
noncomputable def blocks (t : Tape) : List Nat → Nat → List Record
  | [], _ => []
  | i :: rest, oid => blockAt t oid i ++ blocks t rest (oid + numTx t i)

/-- The day mean as the spec words it: base rate 15 times the sinusoid with
exactly one disjoint categorical override, times the weekday/weekend factor,
times the linear growth factor. -/
noncomputable def overrideSpec (i : Nat) : ℝ :=
  if monthOf i = 11 ∨ monthOf i = 12 then 1.8
  else if monthOf i = 6 ∨ monthOf i = 7 then 1.3
  else if monthOf i = 1 ∨ monthOf i = 2 then 0.7
  else 1

noncomputable def dayMeanSpec (i : Nat) : ℝ :=
  15 * ((1 + 0.3 * Real.sin (2 * Real.pi * (dayOfYear i : ℝ) / 365)) * overrideSpec i)
    * (if weekdayOf i < 5 then 1.2 else 0.8)
    * (1 + ((i : ℝ) / 365) * 0.15)

/-! ### Aggregation passes (source lines 230–287)

`df.groupby(k).agg(...)`: one output row per distinct key, each column a
reduction of the rows sharing that key.  `mean` is sum over count,
`nunique` the number of distinct values, `first`/`min`/`max` as in pandas. -/

def minStr : List String → String
  | [] => ""
  | x :: xs => xs.foldl (fun a b => if b < a then b else a) x

def maxStr : List String → String
  | [] => ""
  | x :: xs => xs.foldl (fun a b => if a < b then b else a) x

structure CustRow where
  Customer_ID : String
  Total_Revenue : ℚ
  Total_Quantity : Nat
  Total_Orders : Nat
  Avg_Satisfaction : ℚ
  Returns_Count : Nat
  Region : String
  First_Order_Date : String
  Last_Order_Date : String
deriving DecidableEq, Repr

def customers_data (rs : List Record) : List CustRow :=
  ((rs.map (·.Customer_ID)).dedup).map (fun c =>
    let g := rs.filter (fun r => r.Customer_ID = c)
    { Customer_ID := c
      Total_Revenue := round2 (g.map (·.Final_Revenue)).sum
      Total_Quantity := (g.map (·.Quantity)).sum
      Total_Orders := g.length
      Avg_Satisfaction := round2 ((g.map (·.Customer_Satisfaction)).sum / g.length)
      Returns_Count := (g.filter (·.Is_Returned)).length
      Region := (g.map (·.Region)).headD ""
      First_Order_Date := minStr (g.map (·.Date))
      Last_Order_Date := maxStr (g.map (·.Date)) })

structure ProdRow where
  Product : String
  Total_Revenue : ℚ
  Total_Quantity : Nat
  Total_Orders : Nat
  Avg_Margin : ℚ
  Avg_Satisfaction : ℚ
  Return_Rate : ℚ
deriving DecidableEq, Repr

def product_data (rs : List Record) : List ProdRow :=
  ((rs.map (·.Product)).dedup).map (fun p =>
    let g := rs.filter (fun r => r.Product = p)
    { Product := p
      Total_Revenue := round2 (g.map (·.Final_Revenue)).sum
      Total_Quantity := (g.map (·.Quantity)).sum
      Total_Orders := g.length
      Avg_Margin := round2 ((g.map (·.Final_Margin)).sum / g.length)
      Avg_Satisfaction := round2 ((g.map (·.Customer_Satisfaction)).sum / g.length)
      Return_Rate := round2 (((g.filter (·.Is_Returned)).length : ℚ) / g.length * 100) })

structure RepRow where
  Sales_Rep : String
  Total_Revenue : ℚ
  Total_Orders : Nat
  Avg_Margin : ℚ
  Avg_Customer_Satisfaction : ℚ
  Unique_Customers : Nat
deriving DecidableEq, Repr

def rep_data (rs : List Record) : List RepRow :=
  ((rs.map (·.Sales_Rep)).dedup).map (fun s =>
    let g := rs.filter (fun r => r.Sales_Rep = s)
    { Sales_Rep := s
      Total_Revenue := round2 (g.map (·.Final_Revenue)).sum
      Total_Orders := g.length
      Avg_Margin := round2 ((g.map (·.Final_Margin)).sum / g.length)
      Avg_Customer_Satisfaction := round2 ((g.map (·.Customer_Satisfaction)).sum / g.length)
      Unique_Customers := ((g.map (·.Customer_ID)).dedup).length })

structure MonthRow where
  Year : Nat
  Month : Nat
  Revenue : ℚ
  Profit : ℚ
  Orders : Nat
  Unique_Customers : Nat
  Units_Sold : Nat
  Date : String
deriving DecidableEq, Repr

def monthly_data (rs : List Record) : List MonthRow :=
  ((rs.map (fun r => (r.Year, r.Month))).dedup).map (fun ym =>
    let g := rs.filter (fun r => r.Year = ym.1 ∧ r.Month = ym.2)
    { Year := ym.1
      Month := ym.2
      Revenue := round2 (g.map (·.Final_Revenue)).sum
      Profit := round2 (g.map (·.Final_Profit)).sum
      Orders := g.length
      Unique_Customers := ((g.map (·.Customer_ID)).dedup).length
      Units_Sold := (g.map (·.Quantity)).sum
      Date := padZ 4 ym.1 ++ "-" ++ padZ 2 ym.2 ++ "-01" })

/-! ### The whole run -/

structure Outputs where
  salesColumns : List String
  sales : List (List Cell)
  customerTable : List CustRow
  productTable : List ProdRow
  repTable : List RepRow
  monthlyTable : List MonthRow
deriving DecidableEq

/-- Everything one invocation writes out: the primary table (header and one
serialized row per record) and the four summary tables. -/
noncomputable def outputsOf (t : Tape) : Outputs :=
  { salesColumns := dfColumns
    sales := (generate_sales_data t).map toRow
    customerTable := customers_data (generate_sales_data t)
    productTable := product_data (generate_sales_data t)
    repTable := rep_data (generate_sales_data t)
    monthlyTable := monthly_data (generate_sales_data t) }

/-- A run of the program: `np.random.seed(seed)` fixes the global stream —
abstractly, it selects the tape `streamOf seed` — and the generation plus
the aggregation passes consume only that stream. -/
noncomputable def runWithSeed (streamOf : Nat → Tape) (seed : Nat) : Outputs :=
  outputsOf (streamOf seed)

/-! ### Concrete oracle values used to instantiate the theorems -/

/-- A well-formed draw bundle: Mouse, North America, Tom Davis, no bulk order,
no discount. -/
def sampleDraws : Draws :=
  { productIdx := 4, regionIdx := 0, repIdx := 4, customerIdx := 0,
    price_variation := 1, bulkRoll := 0.5, bulkQty := 5, normalQty := 2,
    cost_ratio := 0.5, discountRoll := 0.5, discountDraw := 10,
    shippingDraw := 5, satNoise := 0, deliveryDraw := 3, returnRoll := 0.5 }

/-- As `sampleDraws` but in Europe. -/
def euDraws : Draws :=
  { productIdx := 4, regionIdx := 1, repIdx := 4, customerIdx := 0,
    price_variation := 1, bulkRoll := 0.5, bulkQty := 5, normalQty := 2,
    cost_ratio := 0.5, discountRoll := 0.5, discountDraw := 10,
    shippingDraw := 5, satNoise := 0, deliveryDraw := 5, returnRoll := 0.5 }

/-- A well-formed draw bundle whose final revenue is exactly 140.10, so that
the tax actually written, `round2(140.10 × 0.08) = 11.21`, differs from
`140.10 × 0.08 = 11.208`: a bulk order of 5 Mice in North America sold by
Tom Davis at price variation 467/515 and no discount. -/
def cexDraws : Draws :=
  { productIdx := 4, regionIdx := 0, repIdx := 4, customerIdx := 0,
    price_variation := 467 / 515, bulkRoll := 0, bulkQty := 5, normalQty := 1,
    cost_ratio := 0.5, discountRoll := 0.5, discountDraw := 10,
    shippingDraw := 5, satNoise := 0, deliveryDraw := 3, returnRoll := 0.5 }

/-- A concrete tape: every Poisson draw is 0 and every transaction uses
`sampleDraws`. -/
def constTape : Tape := ⟨fun _ _ => 0, fun _ => sampleDraws⟩

/-! ## Helper lemmas -/

/-! ### Decimal rendering -/

theorem digitChar_toNat {n : Nat} (h : n < 10) : (digitChar n).toNat - 48 = n := by
  interval_cases n <;> decide

theorem natCharsAux_val (fuel : Nat) :
    ∀ n a, n < fuel →
      (natCharsAux fuel n).foldl (fun a c => a * 10 + (c.toNat - 48)) a =
        a * 10 ^ (natCharsAux fuel n).length + n := by
  induction fuel with
  | zero => intro n a h; omega
  | succ f ih =>
    intro n a h
    by_cases h10 : n < 10
    · simp [natCharsAux, h10, digitChar_toNat h10]
    · have hdiv : n / 10 < n := Nat.div_lt_self (by omega) (by omega)
      have hf : n / 10 < f := by omega
      have hm : n % 10 < 10 := Nat.mod_lt n (by omega)
      simp only [natCharsAux, if_neg h10, List.foldl_append, List.foldl_cons,
        List.foldl_nil, List.length_append, List.length_cons, List.length_nil,
        ih (n / 10) a hf, digitChar_toNat hm]
      rw [pow_succ]
      have h2 : 10 * (n / 10) + n % 10 = n := Nat.div_add_mod n 10
      have key : (a * 10 ^ (natCharsAux f (n / 10)).length + n / 10) * 10 + n % 10 =
          a * (10 ^ (natCharsAux f (n / 10)).length * 10) + (10 * (n / 10) + n % 10) := by
        ring
      rw [key, h2]

theorem foldl_replicate_zero (k : Nat) (a : Nat) :
    (List.replicate k '0').foldl (fun a c => a * 10 + (c.toNat - 48)) a = a * 10 ^ k := by
  induction k generalizing a with
  | zero => simp
  | succ m ih =>
    simp only [List.replicate_succ, List.foldl_cons, ih]
    have : ('0'.toNat - 48) = 0 := by decide
    rw [this, pow_succ]
    ring

theorem unpadVal_padZ (w n : Nat) : unpadVal (padZ w n) = n := by
  unfold unpadVal padZ
  simp only [List.foldl_append, foldl_replicate_zero]
  have := natCharsAux_val (n + 1) n 0 (Nat.lt_succ_self n)
  simpa [natChars] using this

theorem padZ_injective (w : Nat) : Function.Injective (padZ w) := by
  intro m n h
  have := congrArg unpadVal h
  rwa [unpadVal_padZ, unpadVal_padZ] at this

/-! ### Rounding -/

theorem floor_le_roundHalfEven (q : ℚ) : ⌊q⌋ ≤ roundHalfEven q := by
  unfold roundHalfEven
  split_ifs <;> omega

theorem roundHalfEven_le_ceil (q : ℚ) : roundHalfEven q ≤ ⌈q⌉ := by
  have hfc : ⌊q⌋ ≤ ⌈q⌉ := Int.floor_le_ceil q
  have hlt : ¬(q - ⌊q⌋ < 1 / 2) → ⌊q⌋ + 1 ≤ ⌈q⌉ := by
    intro h
    have : (⌊q⌋ : ℚ) < q := by
      have := Int.floor_le q
      by_contra hq
      push_neg at hq
      have : q - ⌊q⌋ ≤ 0 := by linarith [le_antisymm hq (Int.floor_le q)]
      exact h (by linarith)
    exact Int.lt_ceil.mpr this
  unfold roundHalfEven
  split_ifs with h1 h2 h3
  · exact hfc
  · exact hlt h1
  · exact hfc
  · exact hlt h1

/-- `round2` keeps values inside `[1, 5]`. -/
theorem round2_mem_Icc {q : ℚ} (h1 : 1 ≤ q) (h5 : q ≤ 5) :
    1 ≤ round2 q ∧ round2 q ≤ 5 := by
  have hl : (100 : ℤ) ≤ ⌊100 * q⌋ := Int.le_floor.mpr (by push_cast; linarith)
  have hu : ⌈100 * q⌉ ≤ (500 : ℤ) := Int.ceil_le.mpr (by push_cast; linarith)
  have h1' : (100 : ℤ) ≤ roundHalfEven (100 * q) :=
    le_trans hl (floor_le_roundHalfEven _)
  have h2' : roundHalfEven (100 * q) ≤ 500 :=
    le_trans (roundHalfEven_le_ceil _) hu
  have h1q : (100 : ℚ) ≤ (roundHalfEven (100 * q) : ℚ) := by exact_mod_cast h1'
  have h2q : (roundHalfEven (100 * q) : ℚ) ≤ 500 := by exact_mod_cast h2'
  constructor
  · rw [round2, le_div_iff₀ (by norm_num)]
    linarith
  · rw [round2, div_le_iff₀ (by norm_num)]
    linarith

/-! ### Positivity of the money pipeline -/

theorem product_mem {d : Draws} (h : d.productIdx < 8) : product d ∈ products := by
  have hl : d.productIdx < products.length := by simpa [products] using h
  rw [product, List.getD_eq_getElem products "" hl]
  exact List.getElem_mem hl

theorem region_mem {d : Draws} (h : d.regionIdx < 5) : region d ∈ regions := by
  have hl : d.regionIdx < regions.length := by simpa [regions] using h
  rw [region, List.getD_eq_getElem regions "" hl]
  exact List.getElem_mem hl

theorem rep_mem {d : Draws} (h : d.repIdx < 10) : sales_rep d ∈ sales_reps := by
  have hl : d.repIdx < sales_reps.length := by simpa [sales_reps] using h
  rw [sales_rep, List.getD_eq_getElem sales_reps "" hl]
  exact List.getElem_mem hl

theorem base_prices_pos : ∀ p ∈ products, (0 : ℚ) < base_prices p := by decide

theorem region_multipliers_pos : ∀ p ∈ regions, (0 : ℚ) < region_multipliers p := by
  intro p hp
  fin_cases hp <;> norm_num [region_multipliers]

theorem rep_performance_pos : ∀ p ∈ sales_reps, (0 : ℚ) < rep_performance p := by
  intro p hp
  fin_cases hp <;> norm_num [rep_performance]

theorem unit_price_pos {d : Draws} (h : WellFormed d) : 0 < unit_price d := by
  obtain ⟨hp, hr, hrep, -, hpv1, -⟩ := h
  have hbp := base_prices_pos _ (product_mem hp)
  have hrm := region_multipliers_pos _ (region_mem hr)
  have hrf := rep_performance_pos _ (rep_mem hrep)
  have hpv : (0 : ℚ) < d.price_variation := lt_of_lt_of_le (by norm_num) hpv1
  unfold unit_price rep_factor
  exact mul_pos (mul_pos (mul_pos hbp hrm) hrf) hpv

theorem one_le_quantity {d : Draws} (h : WellFormed d) : 1 ≤ quantity d := by
  obtain ⟨-, -, -, -, -, -, -, -, hbq1, -, hnq1, -⟩ := h
  unfold quantity
  split_ifs <;> omega

theorem revenue_pos {d : Draws} (h : WellFormed d) : 0 < revenue d := by
  have hq : (0 : ℚ) < (quantity d : ℚ) := by
    exact_mod_cast lt_of_lt_of_le Nat.zero_lt_one (one_le_quantity h)
  exact mul_pos (unit_price_pos h) hq

theorem discount_amount_lt_revenue {d : Draws} (h : WellFormed d) :
    discount_amount d < revenue d := by
  have hrev := revenue_pos h
  obtain ⟨-, -, -, -, -, -, -, -, -, -, -, -, -, -, -, -, hdd1, hdd2, -⟩ := h
  unfold discount_amount
  split_ifs with hroll
  · have hlt : d.discountDraw / 100 < 1 := by linarith
    calc revenue d * (d.discountDraw / 100) < revenue d * 1 :=
          mul_lt_mul_of_pos_left hlt hrev
      _ = revenue d := mul_one _
  · exact hrev

theorem final_revenue_pos {d : Draws} (h : WellFormed d) : 0 < final_revenue d := by
  unfold final_revenue
  linarith [discount_amount_lt_revenue h]

/-! ### Shape of the generation loop -/

theorem blockAt_length (t : Tape) (oid i : Nat) : (blockAt t oid i).length = numTx t i := by
  simp [blockAt]

theorem one_le_numTx (t : Tape) (i : Nat) : 1 ≤ numTx t i := le_max_left _ _

theorem foldl_dayStep (t : Tape) :
    ∀ (days : List Nat) (oid : Nat) (acc : List Record),
      days.foldl (dayStep t) (oid, acc)
        = (oid + (days.map (numTx t)).sum, acc ++ blocks t days oid) := by
  intro days
  induction days with
  | nil => intro oid acc; simp [blocks]
  | cons i rest ih =>
    intro oid acc
    simp only [List.foldl_cons, dayStep, List.map_cons, List.sum_cons, blocks]
    rw [ih]
    simp only [Prod.mk.injEq]
    exact ⟨by omega, (List.append_assoc _ _ _).symm ▸ rfl⟩

theorem generate_eq_blocks (t : Tape) :
    generate_sales_data t = blocks t (List.range numDays) 1 := by
  unfold generate_sales_data
  rw [foldl_dayStep]
  exact List.nil_append _

theorem blocks_length (t : Tape) :
    ∀ (days : List Nat) (oid : Nat),
      (blocks t days oid).length = (days.map (numTx t)).sum := by
  intro days
  induction days with
  | nil => intro oid; simp [blocks]
  | cons i rest ih => intro oid; simp [blocks, blockAt_length, ih]

theorem date_mem_blocks (t : Tape) {i : Nat} :
    ∀ (days : List Nat) (oid : Nat), i ∈ days →
      ∃ r ∈ blocks t days oid, r.Date = dateStr i := by
  intro days
  induction days with
  | nil => intro oid h; simp at h
  | cons j rest ih =>
    intro oid h
    rcases List.mem_cons.mp h with rfl | hmem
    · refine ⟨mkRecord (oid + 0) i (t.tx (oid + 0)), List.mem_append_left _ ?_, rfl⟩
      unfold blockAt
      exact List.mem_map.mpr
        ⟨0, List.mem_range.mpr (lt_of_lt_of_le Nat.zero_lt_one (one_le_numTx t i)), rfl⟩
    · obtain ⟨r, hr, hd⟩ := ih (oid + numTx t j) hmem
      exact ⟨r, List.mem_append_right _ hr, hd⟩

theorem blocks_orderIds (t : Tape) :
    ∀ (days : List Nat) (oid : Nat),
      (blocks t days oid).map (fun r => r.Order_ID)
        = (List.range ((days.map (numTx t)).sum)).map (fun k => "ORD_" ++ padZ 6 (oid + k)) := by
  intro days
  induction days with
  | nil => intro oid; simp [blocks]
  | cons i rest ih =>
    intro oid
    rw [show blocks t (i :: rest) oid
          = blockAt t oid i ++ blocks t rest (oid + numTx t i) from rfl,
      List.map_append, ih, List.map_cons, List.sum_cons, List.range_add,
      List.map_append, List.map_map]
    congr 1
    · unfold blockAt
      rw [List.map_map]
      rfl
    · refine List.map_congr_left (fun k hk => ?_)
      simp only [Function.comp_apply]
      rw [Nat.add_assoc]

theorem generate_length_pos (t : Tape) : 0 < (generate_sales_data t).length := by
  have hlen : (generate_sales_data t).length = ((List.range numDays).map (numTx t)).sum := by
    rw [generate_eq_blocks, blocks_length]
  rw [hlen]
  have h0 : numTx t 0 ∈ (List.range numDays).map (numTx t) :=
    List.mem_map.mpr ⟨0, List.mem_range.mpr (by norm_num [numDays]), rfl⟩
  have hs := List.single_le_sum (fun x _ => Nat.zero_le x) _ h0
  have h1 := one_le_numTx t 0
  omega

theorem ordId_injective : Function.Injective (fun k => "ORD_" ++ padZ 6 (k + 1)) := by
  intro a b h
  simp only at h
  have hd := congrArg String.data h
  rw [String.data_append, String.data_append] at hd
  have hpad : padZ 6 (a + 1) = padZ 6 (b + 1) := String.ext (List.append_cancel_left hd)
  have := padZ_injective 6 hpad
  omega

/-! ### Well-formedness of the concrete draw bundles -/

theorem sampleDraws_wf : WellFormed sampleDraws := by
  unfold WellFormed
  norm_num [sampleDraws, region, regions, region_delivery_days]

theorem euDraws_wf : WellFormed euDraws := by
  unfold WellFormed
  norm_num [euDraws, region, regions, region_delivery_days]

theorem cexDraws_wf : WellFormed cexDraws := by
  unfold WellFormed
  norm_num [cexDraws, region, regions, region_delivery_days]

/-! ## The claims -/

/-- Claim C1: for a fixed random seed and the fixed date range, two
independent runs of the generator produce identical output — the same
record sequence and byte-identical output tables.  A run only consumes the
global stream selected by the seed, so equal seeds give equal outputs. -/
theorem seed_determinism (streamOf : Nat → Tape) (s1 s2 : Nat) (h : s1 = s2) :
    runWithSeed streamOf s1 = runWithSeed streamOf s2 := by
  rw [h]

theorem seed_determinism_witness :
    runWithSeed (fun _ => constTape) 42 = runWithSeed (fun _ => constTape) 42 :=
  seed_determinism (fun _ => constTape) 42 42 rfl

/-- Claim C2: computing `final_margin` never divides by zero — the checked
recomputation returns a value, the value is 0 whenever `final_revenue` is 0,
and otherwise it is `final_profit / final_revenue × 100`. -/
theorem final_margin_guard (d : Draws) (h : WellFormed d) :
    fm_checked d = some (final_margin d)
    ∧ (final_revenue d = 0 → final_margin d = 0)
    ∧ (final_revenue d ≠ 0 →
        final_margin d = final_profit d / final_revenue d * 100) := by
  have hfr := final_revenue_pos h
  refine ⟨?_, fun h0 => absurd h0 (ne_of_gt hfr), fun _ => ?_⟩
  · rw [fm_checked, if_pos hfr, safeDiv, if_neg (ne_of_gt hfr), final_margin, if_pos hfr]
    rfl
  · rw [final_margin, if_pos hfr]

theorem final_margin_guard_witness :
    fm_checked sampleDraws = some (final_margin sampleDraws)
    ∧ (final_revenue sampleDraws = 0 → final_margin sampleDraws = 0)
    ∧ (final_revenue sampleDraws ≠ 0 →
        final_margin sampleDraws
          = final_profit sampleDraws / final_revenue sampleDraws * 100) :=
  final_margin_guard sampleDraws sampleDraws_wf

/-- Claim C8: the customer-satisfaction field of every generated record lies
in `[1, 5]`, for arbitrary draws — the clamp (and the 2-decimal rounding)
keeps it there regardless of margin, rep performance and noise. -/
theorem satisfaction_clamped (oid i : Nat) (d : Draws) :
    1 ≤ (mkRecord oid i d).Customer_Satisfaction
    ∧ (mkRecord oid i d).Customer_Satisfaction ≤ 5 := by
  have h1 : 1 ≤ customer_satisfaction d := by
    rw [customer_satisfaction]
    refine le_min (by norm_num) ?_
    exact le_trans (by norm_num) (le_max_left _ _)
  have h5 : customer_satisfaction d ≤ 5 := by
    rw [customer_satisfaction]
    exact le_trans (min_le_left _ _) (by norm_num)
  simpa [mkRecord] using round2_mem_Icc h1 h5

/-- Claim C10: for every well-formed draw bundle, the unit price is
positive, the quantity is at least 1, the discount is strictly below the
revenue, so `revenue` and `final_revenue` are strictly positive; hence the
unguarded division computing `profit_margin` never divides by zero and the
`final_revenue == 0` branch of the `final_margin` guard is unreachable. -/
theorem revenue_always_positive (d : Draws) (h : WellFormed d) :
    0 < unit_price d ∧ 1 ≤ quantity d ∧ discount_amount d < revenue d
    ∧ 0 < revenue d ∧ 0 < final_revenue d
    ∧ pm_checked d = some (profit_margin d)
    ∧ final_margin d = final_profit d / final_revenue d * 100 := by
  have hrev := revenue_pos h
  have hfr := final_revenue_pos h
  refine ⟨unit_price_pos h, one_le_quantity h, discount_amount_lt_revenue h,
    hrev, hfr, ?_, ?_⟩
  · rw [pm_checked, safeDiv, if_neg (ne_of_gt hrev)]
    rfl
  · rw [final_margin, if_pos hfr]

theorem revenue_always_positive_witness :
    0 < unit_price sampleDraws ∧ 1 ≤ quantity sampleDraws
    ∧ discount_amount sampleDraws < revenue sampleDraws
    ∧ 0 < revenue sampleDraws ∧ 0 < final_revenue sampleDraws
    ∧ pm_checked sampleDraws = some (profit_margin sampleDraws)
    ∧ final_margin sampleDraws
        = final_profit sampleDraws / final_revenue sampleDraws * 100 :=
  revenue_always_positive sampleDraws sampleDraws_wf

/-- Claim C3: the output decomposes into one block per day of the range;
the block of day `i` has exactly `max 1 (poisson (dayMean i))` records, all
dated on day `i`; hence every date of the range appears in at least one
record and the total record count is the sum of the floored daily counts. -/
theorem daily_counts (t : Tape) :
    generate_sales_data t = blocks t (List.range numDays) 1
    ∧ (∀ oid i, (blockAt t oid i).length = max 1 (t.poisson i (dayMean i))
        ∧ ∀ r ∈ blockAt t oid i, r.Date = dateStr i)
    ∧ (generate_sales_data t).length
        = ((List.range numDays).map (fun i => max 1 (t.poisson i (dayMean i)))).sum
    ∧ ∀ i, i < numDays → ∃ r ∈ generate_sales_data t, r.Date = dateStr i := by
  refine ⟨generate_eq_blocks t, fun oid i => ⟨blockAt_length t oid i, ?_⟩, ?_, ?_⟩
  · intro r hr
    obtain ⟨j, hj, rfl⟩ := List.mem_map.mp hr
    rfl
  · rw [generate_eq_blocks, blocks_length]
    rfl
  · intro i hi
    rw [generate_eq_blocks]
    exact date_mem_blocks t _ 1 (List.mem_range.mpr hi)

theorem daily_counts_witness :
    (blockAt constTape 1 0).length = max 1 (constTape.poisson 0 (dayMean 0))
    ∧ ∃ r ∈ generate_sales_data constTape, r.Date = dateStr 0 :=
  ⟨((daily_counts constTape).2.1 1 0).1,
   (daily_counts constTape).2.2.2 0 (by norm_num [numDays])⟩

/-- Claim C4: the Poisson mean of every day is 15 times the sinusoid
`1 + 0.3·sin(2π·day_of_year/365)`, times exactly one categorical override
(1.8 in November/December, 1.3 in June/July, 0.7 in January/February, else
1), times 1.2 on weekdays and 0.8 on weekends, times the growth factor
`1 + (days_since_start/365)·0.15`. -/
theorem day_mean_formula (i : Nat) : dayMean i = dayMeanSpec i := by
  unfold dayMean dayMeanSpec base_transactions seasonal_factor daily_factor
    growth_factor overrideSpec sinusoid
  simp only [List.mem_cons, List.mem_singleton, List.not_mem_nil, or_false]
  split_ifs <;> ring

/-- Claim C5 fails as stated: in the record written out, `Tax_Amount` is the
tax of the un-rounded final revenue, rounded afterwards, which differs from
`Final_Revenue × 0.08` — here `Final_Revenue = 140.10` but
`Tax_Amount = round2(11.208) = 11.21 ≠ 11.208`. -/
theorem tax_rounding_cex :
    WellFormed cexDraws
    ∧ (mkRecord 1 0 cexDraws).Region = "North America"
    ∧ (mkRecord 1 0 cexDraws).Tax_Amount
        ≠ (mkRecord 1 0 cexDraws).Final_Revenue * 0.08 := by
  refine ⟨cexDraws_wf, by simp [mkRecord, region, regions, cexDraws], ?_⟩
  have h1 : (mkRecord 1 0 cexDraws).Tax_Amount = 1121 / 100 := by
    norm_num [mkRecord, tax_amount, tax_rate, round2, roundHalfEven, final_revenue,
      revenue, discount_amount, unit_price, quantity, rep_factor, sales_rep, sales_reps,
      product, products, region, regions, base_prices, region_multipliers,
      rep_performance, cexDraws]
  have h2 : (mkRecord 1 0 cexDraws).Final_Revenue = 1401 / 10 := by
    norm_num [mkRecord, round2, roundHalfEven, final_revenue, revenue, discount_amount,
      unit_price, quantity, rep_factor, sales_rep, sales_reps, product, products, region,
      regions, base_prices, region_multipliers, rep_performance, cexDraws]
  rw [h1, h2]
  norm_num

/-- Claim C5 as amended: the `Tax_Amount` field is the 2-decimal rounding of
the (pre-rounding) final revenue times 0.08 for North America and times 0.15
for every other region. -/
theorem tax_amount_by_region (oid i : Nat) (d : Draws) :
    ((mkRecord oid i d).Region = "North America" →
      (mkRecord oid i d).Tax_Amount = round2 (final_revenue d * 0.08))
    ∧ ((mkRecord oid i d).Region ≠ "North America" →
      (mkRecord oid i d).Tax_Amount = round2 (final_revenue d * 0.15)) := by
  constructor
  · intro h
    have hr : region d = "North America" := h
    show round2 (tax_amount d) = _
    rw [tax_amount, tax_rate, if_pos hr]
  · intro h
    have hr : ¬(region d = "North America") := h
    show round2 (tax_amount d) = _
    rw [tax_amount, tax_rate, if_neg hr]

theorem tax_amount_by_region_witness :
    (mkRecord 1 0 sampleDraws).Tax_Amount = round2 (final_revenue sampleDraws * 0.08)
    ∧ (mkRecord 1 0 euDraws).Tax_Amount = round2 (final_revenue euDraws * 0.15) :=
  ⟨(tax_amount_by_region 1 0 sampleDraws).1
      (by simp [mkRecord, region, regions, sampleDraws]),
   (tax_amount_by_region 1 0 euDraws).2
      (by simp [mkRecord, region, regions, euDraws])⟩

/-- Claim C6: the `k`-th record's order identifier is `ORD_` plus the
6-zero-padded sequence number `k + 1` — so the first is `ORD_000001`, each
subsequent numeric part is exactly one greater, and they are all distinct. -/
theorem order_ids_sequential (t : Tape) :
    (generate_sales_data t).map (fun r => r.Order_ID)
      = (List.range (generate_sales_data t).length).map (fun k => "ORD_" ++ padZ 6 (k + 1))
    ∧ ((generate_sales_data t).map (fun r => r.Order_ID)).getD 0 "" = "ORD_000001"
    ∧ ((generate_sales_data t).map (fun r => r.Order_ID)).Nodup := by
  have hlen : (generate_sales_data t).length = ((List.range numDays).map (numTx t)).sum := by
    rw [generate_eq_blocks, blocks_length]
  have hmap : (generate_sales_data t).map (fun r => r.Order_ID)
      = (List.range (generate_sales_data t).length).map
          (fun k => "ORD_" ++ padZ 6 (k + 1)) := by
    rw [hlen, generate_eq_blocks, blocks_orderIds]
    refine List.map_congr_left (fun k hk => ?_)
    rw [Nat.add_comm]
  refine ⟨hmap, ?_, ?_⟩
  · rw [hmap]
    have hl : 0 < ((List.range (generate_sales_data t).length).map
        (fun k => "ORD_" ++ padZ 6 (k + 1))).length := by
      simpa using generate_length_pos t
    rw [List.getD_eq_getElem _ _ hl, List.getElem_map, List.getElem_range]
    decide
  · rw [hmap]
    exact List.Nodup.map ordId_injective (List.nodup_range _)

/-- Claim C7 fails as stated: a row of the primary dataset has 28 columns,
not 29. -/
theorem schema_cex : (toRow (mkRecord 1 0 sampleDraws)).length ≠ 29 := by
  simp [toRow]

/-- Claim C7 as amended: every row has exactly the 28 documented columns, in
the documented order, and no cell of any row is a missing value. -/
theorem schema_cols :
    dfColumns = specColumns
    ∧ dfColumns.length = 28
    ∧ ∀ oid i d, (toRow (mkRecord oid i d)).length = dfColumns.length
        ∧ ∀ c ∈ toRow (mkRecord oid i d), c ≠ Cell.null := by
  refine ⟨rfl, rfl, fun oid i d => ⟨rfl, ?_⟩⟩
  intro c hc hnull
  subst hnull
  simp [toRow] at hc

theorem schema_cols_witness :
    (toRow (mkRecord 1 0 sampleDraws)).length = dfColumns.length
    ∧ Cell.str "ORD_000001" ≠ Cell.null :=
  ⟨(schema_cols.2.2 1 0 sampleDraws).1,
   (schema_cols.2.2 1 0 sampleDraws).2 (Cell.str "ORD_000001") (by decide)⟩

/-- Claim C9: for every product appearing in the dataset, the product
summary has exactly one row for it, and that row's `Total_Revenue` is the
(2-decimal-rounded) sum of `Final_Revenue` over the records of that
product. -/
theorem product_summary_sum (rs : List Record) (p : String)
    (hp : p ∈ rs.map (fun r => r.Product)) :
    ∃ row, row ∈ product_data rs ∧ row.Product = p
      ∧ row.Total_Revenue
          = round2 ((rs.filter (fun r => r.Product = p)).map (fun r => r.Final_Revenue)).sum
      ∧ ∀ row2 ∈ product_data rs, row2.Product = p → row2 = row := by
  have hpd : p ∈ (rs.map (fun r => r.Product)).dedup := List.mem_dedup.mpr hp
  refine ⟨_, List.mem_map.mpr ⟨p, hpd, rfl⟩, rfl, rfl, ?_⟩
  intro row2 hrow2 hpr
  obtain ⟨q, hq, rfl⟩ := List.mem_map.mp hrow2
  have hqp : q = p := hpr
  rw [hqp]

theorem product_summary_sum_witness :
    ∃ row, row ∈ product_data [mkRecord 1 0 sampleDraws] ∧ row.Product = "Mouse"
      ∧ row.Total_Revenue
          = round2 (([mkRecord 1 0 sampleDraws].filter
              (fun r => r.Product = "Mouse")).map (fun r => r.Final_Revenue)).sum
      ∧ ∀ row2 ∈ product_data [mkRecord 1 0 sampleDraws],
          row2.Product = "Mouse" → row2 = row :=
  product_summary_sum [mkRecord 1 0 sampleDraws] "Mouse" (by decide)

end SalesData
